import Mathlib

/-!
Verification of github-release-get (src/main.go) against its specification.

The program is embedded shallowly:
* Go strings are modelled as `List Char` (runes); all concrete inputs are ASCII,
  where Go's byte-wise operations coincide with rune-wise ones.
* `path.Match` (Go standard library, used at src/main.go:75) is translated
  function-by-function: `scanChunk`, `matchChunk`, `getEsc` (inlined into
  `parseClassRanges`), and the outer loop of `Match`.  The outer loop consumes
  at least one pattern character per iteration; it is modelled with an explicit
  fuel of `pattern.length + 1`, and `goMatchFuel_adequate` proves the fuel
  never runs out, so the `fuelOut` branch is unreachable.
* `run` (src/main.go:50-139) is modelled as a pure function over an
  environment oracle `Env` describing the remote API, the filesystem and the
  HTTP client; it returns the run's outcome together with the list of external
  effects (`Event`) it performed, in order.
-/

/-- Rune comparison, as Go compares `rune` values (by code point). -/
def charLE (a b : Char) : Bool := decide (a ≤ b)

/-- The leading-star loop of Go `path.scanChunk`:
`for len(pattern) > 0 && pattern[0] == '*' { pattern = pattern[1:]; star = true }`. -/
def stripStars : List Char → Bool × List Char
  | [] => (false, [])
  | c :: rest =>
    if c = '*' then (true, (stripStars rest).2) else (false, c :: rest)

/-- The scanning loop of Go `path.scanChunk`: splits the pattern into the next
chunk (everything up to the next `*` that is not inside a `[...]` range) and
the remaining pattern.  A `\` escapes the following character. -/
def scanChunkAux : Bool → List Char → List Char × List Char
  | _, [] => ([], [])
  | inrange, c :: rest =>
    if c = '\\' then
      match rest with
      | [] => ([c], [])
      | d :: rest2 =>
        let pr := scanChunkAux inrange rest2
        (c :: d :: pr.1, pr.2)
    else if c = '[' then
      let pr := scanChunkAux true rest
      (c :: pr.1, pr.2)
    else if c = ']' then
      let pr := scanChunkAux false rest
      (c :: pr.1, pr.2)
    else if c = '*' then
      if inrange then
        let pr := scanChunkAux inrange rest
        (c :: pr.1, pr.2)
      else ([], c :: rest)
    else
      let pr := scanChunkAux inrange rest
      (c :: pr.1, pr.2)

/-- Go `path.scanChunk`: returns (star, chunk, rest). -/
def scanChunk (p : List Char) : Bool × List Char × List Char :=
  let st := stripStars p
  let cr := scanChunkAux false st.2
  (st.1, cr.1, cr.2)

/-- Result of parsing a `[...]` character class: `ErrBadPattern`, or the match
outcome together with the chunk remaining after the closing `]`. -/
inductive ClassRes where
  | err : ClassRes
  | done : Bool → List Char → ClassRes
deriving DecidableEq

deriving instance DecidableEq for Except

/-- The range-parsing loop inside the `[` case of Go `path.matchChunk`, with
`path.getEsc` inlined.  Arguments: the rune `r` being tested, the accumulated
match flag, whether at least one range has been parsed (`nrange > 0`), and the
remaining chunk (after `[` and an optional `^`).  Faithful to Go: `getEsc`
fails on an empty chunk, a leading `-` or `]`, a trailing `\`, and when the
character is the last one of the chunk (a closing `]` must still follow). -/
def parseClassRanges (r : Char) : Bool → Bool → List Char → ClassRes
  | _, _, [] => .err
  | matched, started, ']' :: rest =>
    if started then .done matched rest else .err
  | _, _, '-' :: _ => .err
  | _, _, ['\\'] => .err
  | _, _, ['\\', _] => .err
  | _, _, ['\\', _, '-'] => .err
  | _, _, '\\' :: _ :: '-' :: '-' :: _ => .err
  | _, _, '\\' :: _ :: '-' :: ']' :: _ => .err
  | _, _, '\\' :: _ :: '-' :: ['\\'] => .err
  | _, _, '\\' :: _ :: '-' :: '\\' :: [_] => .err
  | matched, _, '\\' :: lc :: '-' :: '\\' :: hc :: c3 :: t3 =>
    parseClassRanges r (matched || (charLE lc r && charLE r hc)) true (c3 :: t3)
  | _, _, '\\' :: _ :: '-' :: [_] => .err
  | matched, _, '\\' :: lc :: '-' :: hc :: c3 :: t3 =>
    parseClassRanges r (matched || (charLE lc r && charLE r hc)) true (c3 :: t3)
  | matched, _, '\\' :: lc :: c1 :: t1 =>
    parseClassRanges r (matched || (charLE lc r && charLE r lc)) true (c1 :: t1)
  | _, _, [_] => .err
  | _, _, [_, '-'] => .err
  | _, _, _ :: '-' :: '-' :: _ => .err
  | _, _, _ :: '-' :: ']' :: _ => .err
  | _, _, _ :: '-' :: ['\\'] => .err
  | _, _, _ :: '-' :: '\\' :: [_] => .err
  | matched, _, lc :: '-' :: '\\' :: hc :: c3 :: t3 =>
    parseClassRanges r (matched || (charLE lc r && charLE r hc)) true (c3 :: t3)
  | _, _, _ :: '-' :: [_] => .err
  | matched, _, lc :: '-' :: hc :: c3 :: t3 =>
    parseClassRanges r (matched || (charLE lc r && charLE r hc)) true (c3 :: t3)
  | matched, _, lc :: c1 :: t1 =>
    parseClassRanges r (matched || (charLE lc r && charLE r lc)) true (c1 :: t1)

/-- Result of Go `path.matchChunk`: success with the remaining name,
no match, or `ErrBadPattern`. -/
inductive ChunkRes where
  | ok : List Char → ChunkRes
  | noMatch : ChunkRes
  | err : ChunkRes
deriving DecidableEq

/-- Go `path.matchChunk`: checks whether the chunk matches a prefix of `s`,
returning the remainder of `s` on success. -/
def matchChunk : List Char → List Char → ChunkRes
  | [], s => .ok s
  | '[' :: _, [] => .noMatch
  | '[' :: chunkRest, r :: sRest =>
    let ng : Bool × List Char :=
      match chunkRest with
      | '^' :: t => (true, t)
      | _ => (false, chunkRest)
    match parseClassRanges r false false ng.2 with
    | .err => .err
    | .done m rest2 =>
      if m = ng.1 then .noMatch
      else matchChunk rest2 sRest
  | '?' :: _, [] => .noMatch
  | '?' :: chunkRest, r :: sRest =>
    if r = '/' then .noMatch else matchChunk chunkRest sRest
  | '\\' :: _, [] => .noMatch
  | '\\' :: chunkRest, r :: sRest =>
    match chunkRest with
    | [] => .err
    | d :: chunkRest2 => if d = r then matchChunk chunkRest2 sRest else .noMatch
  | _ :: _, [] => .noMatch
  | c :: chunkRest, r :: sRest =>
    if c = r then matchChunk chunkRest sRest else .noMatch

/-- Result of the star-backtracking loop inside Go `path.Match`. -/
inductive StarRes where
  | found : List Char → StarRes
  | errRes : StarRes
  | exhausted : StarRes
deriving DecidableEq

/-- The inner loop of Go `path.Match` under a `*`: try matching the chunk at
every later byte position of the name (never skipping past a `/`).
`lastChunk` is `len(pattern) == 0` in the Go source: when the chunk is the
last one, a match that leaves part of the name unconsumed is skipped. -/
def starLoop (chunk : List Char) (lastChunk : Bool) : List Char → StarRes
  | [] => .exhausted
  | c :: restName =>
    if c = '/' then .exhausted
    else
      match matchChunk chunk restName with
      | .ok t =>
        if lastChunk = true ∧ t ≠ [] then starLoop chunk lastChunk restName
        else .found t
      | .err => .errRes
      | .noMatch => starLoop chunk lastChunk restName

/-- Result of Go `path.Match`, plus a `fuelOut` marker proved unreachable
by `goMatchFuel_adequate`. -/
inductive MatchOut where
  | ok : Bool → MatchOut
  | badPattern : MatchOut
  | fuelOut : MatchOut
deriving DecidableEq

/-- The outer loop of Go `path.Match`.  Each iteration consumes at least one
pattern character, so fuel `pattern.length + 1` suffices
(`goMatchFuel_adequate`). -/
def goMatchFuel : Nat → List Char → List Char → MatchOut
  | 0, _, _ => .fuelOut
  | _ + 1, [], name => .ok name.isEmpty
  | fuel + 1, p, name =>
    let sc := scanChunk p
    let star := sc.1
    let chunk := sc.2.1
    let rest := sc.2.2
    if star = true ∧ chunk = [] then .ok (!(name.contains '/'))
    else
      match matchChunk chunk name with
      | .ok t =>
        if t = [] ∨ rest ≠ [] then goMatchFuel fuel rest t
        else if star = true then
          match starLoop chunk (rest = []) name with
          | .found t2 => goMatchFuel fuel rest t2
          | .errRes => .badPattern
          | .exhausted => .ok false
        else .ok false
      | .err => .badPattern
      | .noMatch =>
        if star = true then
          match starLoop chunk (rest = []) name with
          | .found t2 => goMatchFuel fuel rest t2
          | .errRes => .badPattern
          | .exhausted => .ok false
        else .ok false

/-- Go `path.Match(pattern, name)`: `Except.ok matched` or
`Except.error ()` for `ErrBadPattern`. -/
def goMatch (pattern name : List Char) : Except Unit Bool :=
  match goMatchFuel (pattern.length + 1) pattern name with
  | .ok b => Except.ok b
  | .badPattern => Except.error ()
  | .fuelOut => Except.error ()

example : goMatch "widget_*_linux_amd64.tar.gz".toList "widget_1.2_linux_amd64.tar.gz".toList = Except.ok true := by decide

example : goMatch "widget_*_linux_amd64.tar.gz".toList "widget_1.2_darwin_amd64.tar.gz".toList = Except.ok false := by decide

example : goMatch "a[b".toList "ab".toList = Except.error () := by decide

example : goMatch "a[b".toList "xyz".toList = Except.ok false := by decide

example : goMatch "*".toList [] = Except.ok true := by decide

example : goMatch "a[bc]d".toList "acd".toList = Except.ok true := by decide

example : goMatch "a[^bc]d".toList "axd".toList = Except.ok true := by decide

example : goMatch "a[0-9]z".toList "a5z".toList = Except.ok true := by decide

example : goMatch "a?c".toList "abc".toList = Except.ok true := by decide

/-! ### Fuel adequacy: the outer loop consumes pattern characters -/

theorem stripStars_len (p : List Char) : ((stripStars p).2).length ≤ p.length := by
  induction p with
  | nil => simp [stripStars]
  | cons c rest ih =>
    by_cases hc : c = '*'
    · simp only [stripStars, if_pos hc, List.length_cons]
      omega
    · simp [stripStars, hc]

theorem stripStars_false (p : List Char) (h : (stripStars p).1 = false) :
    (stripStars p).2 = p := by
  cases p with
  | nil => simp [stripStars]
  | cons c rest =>
    by_cases hc : c = '*'
    · simp [stripStars, hc] at h
    · simp [stripStars, hc]

theorem stripStars_true_lt (p : List Char) (h : (stripStars p).1 = true) :
    ((stripStars p).2).length < p.length := by
  cases p with
  | nil => simp [stripStars] at h
  | cons c rest =>
    by_cases hc : c = '*'
    · simp only [stripStars, if_pos hc, List.length_cons]
      have := stripStars_len rest
      omega
    · simp [stripStars, hc] at h

theorem stripStars_false_head (p : List Char) (h : (stripStars p).1 = false) :
    p = [] ∨ ∃ c t, p = c :: t ∧ c ≠ '*' := by
  cases p with
  | nil => exact Or.inl rfl
  | cons c rest =>
    by_cases hc : c = '*'
    · simp [stripStars, hc] at h
    · exact Or.inr ⟨c, rest, rfl, hc⟩

theorem scanChunkAux_len_bound : ∀ (n : Nat) (b : Bool) (p : List Char), p.length ≤ n →
    (scanChunkAux b p).1.length + (scanChunkAux b p).2.length = p.length := by
  intro n
  induction n with
  | zero =>
    intro b p hp
    cases p with
    | nil => simp [scanChunkAux]
    | cons c rest => simp at hp
  | succ n ih =>
    intro b p hp
    cases p with
    | nil => simp [scanChunkAux]
    | cons c rest =>
      simp only [List.length_cons] at hp
      by_cases h1 : c = '\\'
      · cases rest with
        | nil => simp [scanChunkAux, h1]
        | cons d rest2 =>
          have hr : rest2.length ≤ n := by simp at hp; omega
          have := ih b rest2 hr
          simp [scanChunkAux, h1]
          omega
      · by_cases h2 : c = '['
        · have := ih true rest (by omega)
          rw [scanChunkAux.eq_def]
          simp only []
          rw [if_neg h1, if_pos h2]
          simp only [List.length_cons]
          omega
        · by_cases h3 : c = ']'
          · have := ih false rest (by omega)
            rw [scanChunkAux.eq_def]
            simp only []
            rw [if_neg h1, if_neg h2, if_pos h3]
            simp only [List.length_cons]
            omega
          · by_cases h4 : c = '*'
            · cases b with
              | true =>
                have := ih true rest (by omega)
                rw [scanChunkAux.eq_def]
                simp only []
                rw [if_neg h1, if_neg h2, if_neg h3, if_pos h4]
                simp only [if_true, List.length_cons]
                omega
              | false =>
                rw [scanChunkAux.eq_def]
                simp only []
                rw [if_neg h1, if_neg h2, if_neg h3, if_pos h4]
                simp
            · have := ih b rest (by omega)
              rw [scanChunkAux.eq_def]
              simp only []
              rw [if_neg h1, if_neg h2, if_neg h3, if_neg h4]
              simp only [List.length_cons]
              omega

theorem scanChunkAux_len (b : Bool) (p : List Char) :
    (scanChunkAux b p).1.length + (scanChunkAux b p).2.length = p.length :=
  scanChunkAux_len_bound p.length b p (Nat.le_refl _)

theorem scanChunkAux_chunk_ne (b : Bool) (c : Char) (rest : List Char) (hc : c ≠ '*') :
    (scanChunkAux b (c :: rest)).1 ≠ [] := by
  by_cases h1 : c = '\\'
  · cases rest with
    | nil => simp [scanChunkAux, h1]
    | cons d rest2 => simp [scanChunkAux, h1]
  · by_cases h2 : c = '['
    · rw [scanChunkAux.eq_def]
      simp only []
      rw [if_neg h1, if_pos h2]
      simp
    · by_cases h3 : c = ']'
      · rw [scanChunkAux.eq_def]
        simp only []
        rw [if_neg h1, if_neg h2, if_pos h3]
        simp
      · rw [scanChunkAux.eq_def]
        simp only []
        rw [if_neg h1, if_neg h2, if_neg h3, if_neg hc]
        simp

theorem scan_rest_lt (p : List Char) (hp : p ≠ []) :
    (scanChunk p).2.2.length < p.length := by
  by_cases hs : (stripStars p).1 = true
  · have h1 : ((stripStars p).2).length < p.length := stripStars_true_lt p hs
    have h2 := scanChunkAux_len false (stripStars p).2
    simp only [scanChunk]
    omega
  · have hs' : (stripStars p).1 = false := by
      cases hb : (stripStars p).1
      · rfl
      · exact absurd hb hs
    have hpp : (stripStars p).2 = p := stripStars_false p hs'
    rcases stripStars_false_head p hs' with hnil | ⟨c, t, hct, hc⟩
    · exact absurd hnil hp
    · have hne : (scanChunkAux false (stripStars p).2).1 ≠ [] := by
        rw [hpp, hct]
        exact scanChunkAux_chunk_ne false c t hc
      have h2 := scanChunkAux_len false (stripStars p).2
      have hlen : 0 < (scanChunkAux false (stripStars p).2).1.length := by
        cases hq : (scanChunkAux false (stripStars p).2).1 with
        | nil => exact absurd hq hne
        | cons _ _ => simp
      have hplen : ((stripStars p).2).length = p.length := by rw [hpp]
      simp only [scanChunk]
      omega

theorem goMatchFuel_adequate :
    ∀ (fuel : Nat) (p name : List Char), p.length < fuel →
      goMatchFuel fuel p name ≠ .fuelOut := by
  intro fuel
  induction fuel with
  | zero => intro p name h; omega
  | succ fuel ih =>
    intro p name h
    match p with
    | [] => simp [goMatchFuel]
    | c :: cs =>
      by_cases hguard : (scanChunk (c :: cs)).1 = true ∧ (scanChunk (c :: cs)).2.1 = []
      · simp [goMatchFuel, hguard]
      · have hrest : (scanChunk (c :: cs)).2.2.length < fuel := by
          have := scan_rest_lt (c :: cs) (by simp)
          simp only [List.length_cons] at this h ⊢
          omega
        simp only [goMatchFuel, if_neg hguard]
        split
        · split
          · exact ih _ _ hrest
          · split
            · split
              · exact ih _ _ hrest
              · simp
              · simp
            · simp
        · simp
        · split
          · split
            · exact ih _ _ hrest
            · simp
            · simp
          · simp

/-- The fuel `pattern.length + 1` used by `goMatch` is always sufficient:
the `fuelOut` marker is unreachable. -/
theorem goMatch_fuel_sufficient (pattern name : List Char) :
    goMatchFuel (pattern.length + 1) pattern name ≠ .fuelOut :=
  goMatchFuel_adequate (pattern.length + 1) pattern name (Nat.lt_succ_self _)

/-! ### The filesystem path helpers used at src/main.go:88 -/

/-- `filepath.FromSlash` on Linux (where `filepath.Separator` is `'/'`):
the identity. -/
def fromSlash (p : List Char) : List Char := p

/-- The trailing-separator stripping step of `filepath.Base`. -/
def stripTrailingSep (p : List Char) : List Char :=
  (p.reverse.dropWhile (fun c => c = '/')).reverse

/-- The "everything after the last separator" step of `filepath.Base`. -/
def afterLastSep (p : List Char) : List Char :=
  (p.reverse.takeWhile (fun c => c ≠ '/')).reverse

/-- `filepath.Base` on Linux (empty volume name): `"."` for the empty path,
`"/"` when the path consists entirely of separators, otherwise the final
path element. -/
def filepathBase (p : List Char) : List Char :=
  if p = [] then ['.']
  else
    let q := stripTrailingSep p
    let r := afterLastSep q
    if r = [] then ['/'] else r

example : filepathBase "a/b/c".toList = "c".toList := by decide

example : filepathBase "../evil".toList = "evil".toList := by decide

example : filepathBase "/".toList = "/".toList := by decide

example : filepathBase "name".toList = "name".toList := by decide

/-! ### The data model and the `run` function (src/main.go:50-139) -/

/-- A release asset: `GetID`/`GetName` of go-github's `ReleaseAsset`
(0 and "" when the underlying pointers are nil). -/
structure Asset where
  id : Int
  name : List Char
deriving DecidableEq

/-- A release: the ordered asset list returned by the API. -/
structure Release where
  assets : List Asset
deriving DecidableEq

/-- The `runArgs` struct (src/main.go:40-48).  `timeout` is a
`time.Duration` in nanoseconds. -/
structure RunArgs where
  owner : List Char
  repo : List Char
  pattern : List Char
  timeout : Int
  token : List Char
deriving DecidableEq

/-- Outcome of `os.Stat(dst)` as the code distinguishes it (src/main.go:89):
the run proceeds only when the error satisfies `os.IsNotExist`. -/
inductive StatRes where
  | present : StatRes
  | absent : StatRes
  | statError : StatRes
deriving DecidableEq

/-- An HTTP response to the redirect GET (status code and body bytes). -/
structure HttpResp where
  status : Nat
  body : List Nat
deriving DecidableEq

/-- Oracle for every external effect `run` can perform: the release-metadata
request, `os.Stat`, `DownloadReleaseAsset` (a byte stream, a redirect URL, or
an error), temp-file creation, the redirect HTTP GET, and whether the final
close and rename succeed. -/
structure Env where
  latestRelease : Except Unit Release
  stat : List Char → StatRes
  download : Int → Except Unit (Option (List Nat) × List Char)
  tempCreate : Except Unit Unit
  httpGet : List Char → Except Unit HttpResp
  closeOk : Bool
  renameOk : Bool

/-- External effects of a run, in program order.  `fetchRelease`,
`downloadAsset` and `httpGet` are network requests; `statFile` and `renameTo`
are the only touches of the working directory. -/
inductive Event where
  | fetchRelease : List Char → List Char → Event
  | statFile : List Char → Event
  | downloadAsset : Int → Event
  | httpGet : List Char → Event
  | renameTo : List Char → Event
deriving DecidableEq

/-- The distinct failure outcomes of `run`, one per `return fmt.Errorf`/
`return err` site in src/main.go. -/
inductive RunError where
  | mandatoryFlagMissing : RunError
  | apiError : RunError
  | badPattern : RunError
  | emptyAssetName : RunError
  | fileAlreadyExists : List Char → RunError
  | noAssetsMatching : List Char → List (List Char) → RunError
  | downloadApiError : RunError
  | tempFileError : RunError
  | httpError : RunError
  | invalidStatus : Nat → RunError
  | noSensibleLink : RunError
  | closeError : RunError
  | renameError : RunError
deriving DecidableEq

/-- The selection loop (src/main.go:71-84).  The accumulator is the `name`
variable, which is assigned the asset's name **before** the pattern test, so
after a loop with no match it holds the *last* asset's name; `id` stays 0.
On the first match the loop stops (`break`), returning that asset's id and
name.  A pattern error aborts. -/
def selectLoop (pattern : List Char) : List Asset → List Char → Except Unit (Int × List Char)
  | [], lastName => Except.ok (0, lastName)
  | a :: rest, _ =>
    match goMatch pattern a.name with
    | .error e => .error e
    | .ok true => .ok (a.id, a.name)
    | .ok false => selectLoop pattern rest a.name

/-- The value of the `name` variable after a selection loop in which no asset
matched: the last asset's name, or the initial value for an empty list. -/
def lastNameD : List Asset → List Char → List Char
  | [], acc => acc
  | a :: rest, _ => lastNameD rest a.name

/-- Lines 135-138 of src/main.go plus the copy into the temp file: close the
staging file and rename it onto `dst`.  On success the destination receives
exactly the copied bytes. -/
def finalize (env : Env) (dst : List Char) (body : List Nat) (evs : List Event) :
    Except RunError (List Char × List Nat) × List Event :=
  if env.closeOk then
    if env.renameOk then (Except.ok (dst, body), evs ++ [Event.renameTo dst])
    else (Except.error RunError.renameError, evs ++ [Event.renameTo dst])
  else (Except.error RunError.closeError, evs)

/-- `run` (src/main.go:50-139), as a pure function of the arguments and the
effect oracle.  Returns the outcome (on success: destination name and the
bytes it received) together with the ordered list of external effects.
The token only selects an (un)authenticated HTTP client (lines 59-66) and the
timeout only installs a context deadline (lines 54-58, see `runDeadline`);
neither changes the control flow modelled here. -/
def run (args : RunArgs) (env : Env) : Except RunError (List Char × List Nat) × List Event :=
  if args.owner = [] ∨ args.repo = [] ∨ args.pattern = [] then
    (Except.error RunError.mandatoryFlagMissing, [])
  else
    let ev0 : List Event := [Event.fetchRelease args.owner args.repo]
    match env.latestRelease with
    | .error _ => (Except.error RunError.apiError, ev0)
    | .ok release =>
      match selectLoop args.pattern release.assets [] with
      | .error _ => (Except.error RunError.badPattern, ev0)
      | .ok (id, name) =>
        if name = [] then (Except.error RunError.emptyAssetName, ev0)
        else
          let dst := filepathBase (fromSlash name)
          let ev1 := ev0 ++ [Event.statFile dst]
          match env.stat dst with
          | .present => (Except.error (RunError.fileAlreadyExists dst), ev1)
          | .statError => (Except.error (RunError.fileAlreadyExists dst), ev1)
          | .absent =>
            if id = 0 then
              (Except.error (RunError.noAssetsMatching args.pattern (release.assets.map Asset.name)), ev1)
            else
              let ev2 := ev1 ++ [Event.downloadAsset id]
              match env.download id with
              | .error _ => (Except.error RunError.downloadApiError, ev2)
              | .ok (rc, u) =>
                match env.tempCreate with
                | .error _ => (Except.error RunError.tempFileError, ev2)
                | .ok _ =>
                  match rc with
                  | some body => finalize env dst body ev2
                  | none =>
                    if u ≠ [] then
                      let ev3 := ev2 ++ [Event.httpGet u]
                      match env.httpGet u with
                      | .error _ => (Except.error RunError.httpError, ev3)
                      | .ok resp =>
                        if resp.status ≠ 200 then
                          (Except.error (RunError.invalidStatus resp.status), ev3)
                        else finalize env dst resp.body ev3
                    else (Except.error RunError.noSensibleLink, ev2)

/-- `time.Minute` in nanoseconds: the default set in `main`
(src/main.go:30). -/
def minuteNs : Int := 60000000000

/-- `main`'s construction of `runArgs` (src/main.go:29-33): the timeout
defaults to one minute and is overridden by the flag when given;
the token comes from the environment. -/
def mainArgs (flagOwner flagRepo flagPattern : List Char) (flagTimeout : Option Int)
    (envToken : List Char) : RunArgs :=
  { owner := flagOwner, repo := flagRepo, pattern := flagPattern,
    timeout := flagTimeout.getD minuteNs, token := envToken }

/-- The deadline decision (src/main.go:54-58): a positive timeout installs a
context deadline of that duration; zero (or negative) leaves the context
without a deadline. -/
def runDeadline (args : RunArgs) : Option Int :=
  if args.timeout > 0 then some args.timeout else none

/-! ### Selection lemmas -/

theorem selectLoop_first_match (pattern : List Char) (post : List Asset) (a : Asset)
    (ha : goMatch pattern a.name = Except.ok true) :
    ∀ (pre : List Asset) (acc : List Char),
      (∀ b ∈ pre, goMatch pattern b.name = Except.ok false) →
      selectLoop pattern (pre ++ a :: post) acc = Except.ok (a.id, a.name) := by
  intro pre
  induction pre with
  | nil =>
    intro acc _
    simp [selectLoop, ha]
  | cons b pre ih =>
    intro acc hall
    have hb : goMatch pattern b.name = Except.ok false := hall b (by simp)
    simp only [List.cons_append, selectLoop, hb]
    exact ih b.name (fun x hx => hall x (by simp [hx]))

theorem selectLoop_no_match (pattern : List Char) :
    ∀ (l : List Asset) (acc : List Char),
      (∀ b ∈ l, goMatch pattern b.name = Except.ok false) →
      selectLoop pattern l acc = Except.ok (0, lastNameD l acc) := by
  intro l
  induction l with
  | nil =>
    intro acc _
    simp [selectLoop, lastNameD]
  | cons b l ih =>
    intro acc hall
    have hb : goMatch pattern b.name = Except.ok false := hall b (by simp)
    simp only [selectLoop, hb, lastNameD]
    exact ih b.name (fun x hx => hall x (by simp [hx]))

theorem run_flags_ok (args : RunArgs) (h1 : args.owner ≠ []) (h2 : args.repo ≠ [])
    (h3 : args.pattern ≠ []) :
    ¬(args.owner = [] ∨ args.repo = [] ∨ args.pattern = []) := by
  push_neg
  exact ⟨h1, h2, h3⟩

/-- A benign effect oracle used to instantiate universally quantified
theorems at concrete inputs. -/
def envDefault : Env :=
  { latestRelease := Except.error ()
  , stat := fun _ => StatRes.absent
  , download := fun _ => Except.ok (none, [])
  , tempCreate := Except.ok ()
  , httpGet := fun _ => Except.ok ⟨200, []⟩
  , closeOk := true
  , renameOk := true }

/-! ### Claims -/

/-- C1: for every release whose asset list contains at least one name
matching the glob pattern, the selector picks the first asset in API-returned
order whose name matches (all earlier assets fail the match), and every
asset after that first match is ignored — `post` is arbitrary and does not
influence the result. -/
theorem C1_first_match_selected (pattern : List Char) (pre post : List Asset) (a : Asset)
    (hpre : ∀ b ∈ pre, goMatch pattern b.name = Except.ok false)
    (ha : goMatch pattern a.name = Except.ok true) :
    selectLoop pattern (pre ++ a :: post) [] = Except.ok (a.id, a.name) :=
  selectLoop_first_match pattern post a ha pre [] hpre

/-- C1 witness: the spec's own example — owner "acme", repo "widget",
pattern "widget_*_linux_amd64.tar.gz"; the darwin asset does not match, the
linux asset does, and the destination filename is the matched name itself. -/
theorem C1_witness :
    selectLoop "widget_*_linux_amd64.tar.gz".toList
        [⟨1, "widget_1.2_darwin_amd64.tar.gz".toList⟩,
         ⟨2, "widget_1.2_linux_amd64.tar.gz".toList⟩] []
      = Except.ok (2, "widget_1.2_linux_amd64.tar.gz".toList)
    ∧ filepathBase (fromSlash "widget_1.2_linux_amd64.tar.gz".toList)
      = "widget_1.2_linux_amd64.tar.gz".toList := by
  refine ⟨?_, by decide⟩
  exact C1_first_match_selected "widget_*_linux_amd64.tar.gz".toList
    [⟨1, "widget_1.2_darwin_amd64.tar.gz".toList⟩] []
    ⟨2, "widget_1.2_linux_amd64.tar.gz".toList⟩
    (by decide) (by decide)

/-- C8: the timeout defaults to one minute when the flag is unspecified, a
positive timeout installs a deadline of that duration, and a timeout of zero
leaves the run's context without any deadline. -/
theorem C8_timeout_default_and_zero_disables (o r p tok : List Char) (args : RunArgs)
    (hz : args.timeout = 0) :
    (mainArgs o r p none tok).timeout = minuteNs
    ∧ runDeadline (mainArgs o r p none tok) = some minuteNs
    ∧ runDeadline args = none := by
  refine ⟨rfl, ?_, ?_⟩
  · simp [runDeadline, mainArgs, minuteNs]
  · simp [runDeadline, hz]

/-- C8 witness at concrete arguments. -/
theorem C8_witness :
    (mainArgs ['o'] ['r'] ['p'] none []).timeout = minuteNs
    ∧ runDeadline (mainArgs ['o'] ['r'] ['p'] none []) = some minuteNs
    ∧ runDeadline { owner := ['o'], repo := ['r'], pattern := ['p'],
                    timeout := 0, token := [] } = none :=
  C8_timeout_default_and_zero_disables ['o'] ['r'] ['p'] []
    { owner := ['o'], repo := ['r'], pattern := ['p'], timeout := 0, token := [] } rfl

/-- C9: when owner, repository or pattern is empty, the run fails with the
generic mandatory-flag error and performs no external effect at all — in
particular it never contacts the remote API. -/
theorem C9_missing_flag_fails_fast (args : RunArgs) (env : Env)
    (h : args.owner = [] ∨ args.repo = [] ∨ args.pattern = []) :
    run args env = (Except.error RunError.mandatoryFlagMissing, []) := by
  simp only [run, if_pos h]

/-- C9 witness: empty owner with otherwise well-formed arguments. -/
theorem C9_witness :
    run { owner := [], repo := ['r'], pattern := ['p'], timeout := 0, token := [] }
        envDefault
      = (Except.error RunError.mandatoryFlagMissing, []) :=
  C9_missing_flag_fails_fast _ envDefault (Or.inl rfl)

/-- Arguments used by the no-match counterexamples: pattern "b" which matches
no asset. -/
def c2Args : RunArgs :=
  { owner := ['o'], repo := ['r'], pattern := ['b'], timeout := 0, token := [] }

/-- One release asset named "a", and a working directory already containing a
file named "a". -/
def c2EnvExists : Env :=
  { latestRelease := Except.ok ⟨[⟨5, ['a']⟩]⟩
  , stat := fun p => if p = ['a'] then StatRes.present else StatRes.absent
  , download := fun _ => Except.ok (none, [])
  , tempCreate := Except.ok ()
  , httpGet := fun _ => Except.ok ⟨200, []⟩
  , closeOk := true
  , renameOk := true }

/-- The same remote state but with an empty working directory. -/
def c2EnvAbsent : Env :=
  { c2EnvExists with stat := fun _ => StatRes.absent }

/-- A release with no assets at all. -/
def c2EnvNoAssets : Env :=
  { c2EnvExists with
    latestRelease := Except.ok ⟨[]⟩
    stat := fun _ => StatRes.absent }

/-- C2 counterexample: two runs in which no asset name matches the pattern,
yet the failure does **not** enumerate the available asset names.  The code
assigns `name` before testing it (src/main.go:74), so after a no-match loop
`name` holds the last asset's name, and the existence check at line 89 and
the empty-name check at line 85 both fire *before* the `id == 0` enumeration
at line 92.  With assets `["a"]`, pattern `"b"` and a file `"a"` already
present, the run fails with "file already exists"; with no assets at all it
fails with "empty asset name". -/
theorem C2_counterexample :
    (run c2Args c2EnvExists).1 = Except.error (RunError.fileAlreadyExists ['a'])
    ∧ (run c2Args c2EnvExists).1 ≠ Except.error (RunError.noAssetsMatching ['b'] [['a']])
    ∧ (run c2Args c2EnvNoAssets).1 = Except.error RunError.emptyAssetName
    ∧ (run c2Args c2EnvNoAssets).1 ≠ Except.error (RunError.noAssetsMatching ['b'] []) := by
  decide

/-- C2 (amended): for every release whose asset list contains no name
matching the pattern, **provided** the last asset's name is non-empty and no
file with its basename exists in the working directory, the run fails with
the error that carries the pattern tried and exactly the full list of
available asset names (otherwise the run fails earlier, with "empty asset
name" or "file already exists", without the enumeration). -/
theorem C2_no_match_enumerates (args : RunArgs) (env : Env) (release : Release)
    (h1 : args.owner ≠ []) (h2 : args.repo ≠ []) (h3 : args.pattern ≠ [])
    (hRel : env.latestRelease = Except.ok release)
    (hNoMatch : ∀ b ∈ release.assets, goMatch args.pattern b.name = Except.ok false)
    (hLast : lastNameD release.assets [] ≠ [])
    (hStat : env.stat (filepathBase (fromSlash (lastNameD release.assets [])))
      = StatRes.absent) :
    run args env
      = (Except.error (RunError.noAssetsMatching args.pattern (release.assets.map Asset.name)),
         [Event.fetchRelease args.owner args.repo,
          Event.statFile (filepathBase (fromSlash (lastNameD release.assets [])))]) := by
  have hSel := selectLoop_no_match args.pattern release.assets [] hNoMatch
  simp only [run, if_neg (run_flags_ok args h1 h2 h3), hRel, hSel, if_neg hLast, hStat]
  simp

/-- C2 witness: assets `["a"]`, pattern `"b"`, empty working directory —
the run fails enumerating exactly `["a"]` alongside pattern `"b"`. -/
theorem C2_witness :
    run c2Args c2EnvAbsent
      = (Except.error (RunError.noAssetsMatching ['b'] [['a']]),
         [Event.fetchRelease ['o'] ['r'], Event.statFile ['a']]) := by
  rw [C2_no_match_enumerates c2Args c2EnvAbsent ⟨[⟨5, ['a']⟩]⟩
    (by decide) (by decide) (by decide) (by decide) (by decide) (by decide) (by decide)]
  decide

/-- C3: when an asset is selected (first match, non-empty name) and a file
with the destination basename already exists — or the stat fails for a
reason other than "does not exist" — the run aborts with the
"file already exists" error.  The effect trace is exactly the metadata fetch
and the stat: no asset-content request (`downloadAsset`/`httpGet`) is made
and no filesystem write (`renameTo`) occurs, so the pre-existing file is
untouched. -/
theorem C3_existing_dest_blocks_download (args : RunArgs) (env : Env) (release : Release)
    (pre post : List Asset) (a : Asset)
    (h1 : args.owner ≠ []) (h2 : args.repo ≠ []) (h3 : args.pattern ≠ [])
    (hRel : env.latestRelease = Except.ok release)
    (hAssets : release.assets = pre ++ a :: post)
    (hpre : ∀ b ∈ pre, goMatch args.pattern b.name = Except.ok false)
    (ha : goMatch args.pattern a.name = Except.ok true)
    (hname : a.name ≠ [])
    (hStat : env.stat (filepathBase (fromSlash a.name)) ≠ StatRes.absent) :
    run args env
      = (Except.error (RunError.fileAlreadyExists (filepathBase (fromSlash a.name))),
         [Event.fetchRelease args.owner args.repo,
          Event.statFile (filepathBase (fromSlash a.name))]) := by
  have hSel : selectLoop args.pattern release.assets [] = Except.ok (a.id, a.name) := by
    rw [hAssets]
    exact selectLoop_first_match args.pattern post a ha pre [] hpre
  simp only [run, if_neg (run_flags_ok args h1 h2 h3), hRel, hSel, if_neg hname]
  cases hs : env.stat (filepathBase (fromSlash a.name)) with
  | present => simp
  | absent => exact absurd hs hStat
  | statError => simp

/-- Environment for the C3 witness: one matching asset "a" and a file "a"
already in the working directory. -/
def c3Env : Env :=
  { c2EnvExists with latestRelease := Except.ok ⟨[⟨5, ['a']⟩]⟩ }

/-- C3 witness: pattern "a" matches asset "a" whose file already exists. -/
theorem C3_witness :
    run { owner := ['o'], repo := ['r'], pattern := ['a'], timeout := 0, token := [] } c3Env
      = (Except.error (RunError.fileAlreadyExists ['a']),
         [Event.fetchRelease ['o'] ['r'], Event.statFile ['a']]) := by
  rw [C3_existing_dest_blocks_download
    { owner := ['o'], repo := ['r'], pattern := ['a'], timeout := 0, token := [] }
    c3Env ⟨[⟨5, ['a']⟩]⟩ [] [] ⟨5, ['a']⟩
    (by decide) (by decide) (by decide) (by decide) (by decide) (by decide) (by decide)
    (by decide) (by decide)]
  decide

/-- C10: the selector uses `id == 0` as the no-match sentinel
(src/main.go:92), so when the first pattern-matching asset has identifier 0
(non-empty name, destination absent) the run does not download it; it fails
with the same "no assets matching pattern" enumeration error as if nothing
had matched, and the trace shows no `downloadAsset` request. -/
theorem C10_zero_id_treated_as_no_match (args : RunArgs) (env : Env) (release : Release)
    (pre post : List Asset) (a : Asset)
    (h1 : args.owner ≠ []) (h2 : args.repo ≠ []) (h3 : args.pattern ≠ [])
    (hRel : env.latestRelease = Except.ok release)
    (hAssets : release.assets = pre ++ a :: post)
    (hpre : ∀ b ∈ pre, goMatch args.pattern b.name = Except.ok false)
    (ha : goMatch args.pattern a.name = Except.ok true)
    (hid : a.id = 0)
    (hname : a.name ≠ [])
    (hStat : env.stat (filepathBase (fromSlash a.name)) = StatRes.absent) :
    run args env
      = (Except.error (RunError.noAssetsMatching args.pattern (release.assets.map Asset.name)),
         [Event.fetchRelease args.owner args.repo,
          Event.statFile (filepathBase (fromSlash a.name))]) := by
  have hSel : selectLoop args.pattern release.assets [] = Except.ok (0, a.name) := by
    rw [hAssets]
    have hfm := selectLoop_first_match args.pattern post a ha pre [] hpre
    rw [hid] at hfm
    exact hfm
  simp only [run, if_neg (run_flags_ok args h1 h2 h3), hRel, hSel, if_neg hname, hStat]
  simp

/-- Environment for the C10 witness: a single matching asset with id 0. -/
def c10Env : Env :=
  { c2EnvExists with
    latestRelease := Except.ok ⟨[⟨0, ['x']⟩]⟩
    stat := fun _ => StatRes.absent }

/-- C10 witness: asset "x" with identifier 0 matches pattern "x", yet the run
reports "no assets matching pattern" and never downloads. -/
theorem C10_witness :
    run { owner := ['o'], repo := ['r'], pattern := ['x'], timeout := 0, token := [] } c10Env
      = (Except.error (RunError.noAssetsMatching ['x'] [['x']]),
         [Event.fetchRelease ['o'] ['r'], Event.statFile ['x']]) := by
  rw [C10_zero_id_treated_as_no_match
    { owner := ['o'], repo := ['r'], pattern := ['x'], timeout := 0, token := [] }
    c10Env ⟨[⟨0, ['x']⟩]⟩ [] [] ⟨0, ['x']⟩
    (by decide) (by decide) (by decide) (by decide) (by decide) (by decide) (by decide)
    (by decide) (by decide) (by decide)]
  decide

/-- Arguments with the malformed pattern `"a[b"` (unterminated character
class) and non-empty owner/repo. -/
def c4Args : RunArgs :=
  { owner := ['o'], repo := ['r'], pattern := "a[b".toList, timeout := 0, token := [] }

/-- Remote asset "ab": matching it against `"a[b"` reaches the unterminated
class, so the pattern engine errors. -/
def c4Env : Env :=
  { latestRelease := Except.ok ⟨[⟨7, "ab".toList⟩]⟩
  , stat := fun _ => StatRes.absent
  , download := fun _ => Except.ok (none, [])
  , tempCreate := Except.ok ()
  , httpGet := fun _ => Except.ok ⟨200, []⟩
  , closeOk := true
  , renameOk := true }

/-- Remote asset "xyz": matching it against `"a[b"` fails on the first
literal, so the malformed class is never reached and no pattern error is
reported. -/
def c4EnvMiss : Env :=
  { c4Env with latestRelease := Except.ok ⟨[⟨7, "xyz".toList⟩]⟩ }

/-- C4 counterexample: the release-metadata request (`GetLatestRelease`,
src/main.go:67) happens *before* any pattern matching, so even when the
malformed pattern `"a[b"` is reported, the trace already contains a network
call — the claim's "makes no network call" is false.  Moreover the pattern
error is raised only when matching some asset name reaches the malformed
part: with assets `["xyz"]` the same malformed pattern yields the no-match
enumeration error instead of a pattern error. -/
theorem C4_counterexample :
    (run c4Args c4Env).1 = Except.error RunError.badPattern
    ∧ (run c4Args c4Env).2 = [Event.fetchRelease ['o'] ['r']]
    ∧ (run c4Args c4Env).2 ≠ []
    ∧ (run c4Args c4EnvMiss).1
      = Except.error (RunError.noAssetsMatching "a[b".toList ["xyz".toList])
    ∧ (run c4Args c4EnvMiss).1 ≠ Except.error RunError.badPattern := by
  decide

/-- C4 (amended): a malformed glob pattern makes the run fail with the
pattern engine's error as soon as matching some asset name reaches the
malformed part of the pattern; this failure happens *after* the
release-metadata network request — which the run always issues first — and
before any asset-content request (no `downloadAsset`/`httpGet` in the
trace).  A malformed pattern whose defect is never reached during matching
does not raise the pattern error. -/
theorem C4_bad_pattern_fails_after_metadata (args : RunArgs) (env : Env) (release : Release)
    (h1 : args.owner ≠ []) (h2 : args.repo ≠ []) (h3 : args.pattern ≠ [])
    (hRel : env.latestRelease = Except.ok release)
    (hSel : selectLoop args.pattern release.assets [] = Except.error ()) :
    run args env
      = (Except.error RunError.badPattern, [Event.fetchRelease args.owner args.repo]) := by
  simp only [run, if_neg (run_flags_ok args h1 h2 h3), hRel, hSel]

/-- C4 witness: pattern `"a[b"` against assets `["ab"]`. -/
theorem C4_witness :
    run c4Args c4Env
      = (Except.error RunError.badPattern, [Event.fetchRelease ['o'] ['r']]) := by
  rw [C4_bad_pattern_fails_after_metadata c4Args c4Env ⟨[⟨7, "ab".toList⟩]⟩
    (by decide) (by decide) (by decide) (by decide) (by decide)]
  decide

/-- Pattern `"*"`, which matches the empty asset name. -/
def c5ArgsMatch : RunArgs :=
  { owner := ['o'], repo := ['r'], pattern := ['*'], timeout := 0, token := [] }

/-- Pattern `"z"`, which matches nothing here. -/
def c5ArgsNoMatch : RunArgs :=
  { owner := ['o'], repo := ['r'], pattern := ['z'], timeout := 0, token := [] }

/-- A release whose single asset has the empty name. -/
def c5EnvEmptyName : Env :=
  { latestRelease := Except.ok ⟨[⟨3, []⟩]⟩
  , stat := fun _ => StatRes.absent
  , download := fun _ => Except.ok (none, [])
  , tempCreate := Except.ok ()
  , httpGet := fun _ => Except.ok ⟨200, []⟩
  , closeOk := true
  , renameOk := true }

/-- A release whose single asset is named "a". -/
def c5EnvPlain : Env :=
  { c5EnvEmptyName with latestRelease := Except.ok ⟨[⟨5, ['a']⟩]⟩ }

/-- C5 counterexample: against the same remote state (one asset with an
empty name), a run whose pattern `"*"` *matches* the empty-named asset and a
run whose pattern `"z"` matches *nothing* produce identical outcomes — so
selection does not distinguish "matched an asset whose name is empty" from
"no asset matched". -/
theorem C5_counterexample :
    goMatch ['*'] [] = Except.ok true
    ∧ goMatch ['z'] [] = Except.ok false
    ∧ run c5ArgsMatch c5EnvEmptyName = run c5ArgsNoMatch c5EnvEmptyName
    ∧ (run c5ArgsMatch c5EnvEmptyName).1 = Except.error RunError.emptyAssetName := by
  decide

/-- C5 (amended): the code conflates the two cases only through the
"empty asset name" guard (src/main.go:85): a matched empty-named asset and a
no-match loop ending on an empty-named asset fail identically.  But — contrary
to the spec's §9 note — emptiness of the selected-name variable is *not* the
sole no-match signal: `name` is assigned before the test (line 74), so after
a no-match loop it holds the last asset's (possibly non-empty) name, and the
actual no-match sentinel is `id == 0` (line 92), which produces the
enumeration error even though `name` is non-empty. -/
theorem C5_empty_name_conflation :
    run c5ArgsMatch c5EnvEmptyName
      = (Except.error RunError.emptyAssetName, [Event.fetchRelease ['o'] ['r']])
    ∧ run c5ArgsNoMatch c5EnvEmptyName
      = (Except.error RunError.emptyAssetName, [Event.fetchRelease ['o'] ['r']])
    ∧ (run c5ArgsNoMatch c5EnvPlain).1
      = Except.error (RunError.noAssetsMatching ['z'] [['a']])
    ∧ lastNameD [⟨5, ['a']⟩] [] = ['a'] := by
  decide

/-- C6: the redirect branch of the downloader (src/main.go:115-134).
After a successful selection with the destination absent, when the API
returns no byte stream but a redirect URL `u`:
with `u` empty the run fails with the "no sensible link" error and no HTTP
GET is issued; with `u` non-empty a plain GET against `u` is issued, a
non-200 status aborts with the invalid-status error, and a 200 response has
its body copied into the staging file which is then renamed onto the
destination. -/
theorem C6_redirect_download (args : RunArgs) (env : Env) (release : Release)
    (pre post : List Asset) (a : Asset) (u : List Char)
    (h1 : args.owner ≠ []) (h2 : args.repo ≠ []) (h3 : args.pattern ≠ [])
    (hRel : env.latestRelease = Except.ok release)
    (hAssets : release.assets = pre ++ a :: post)
    (hpre : ∀ b ∈ pre, goMatch args.pattern b.name = Except.ok false)
    (ha : goMatch args.pattern a.name = Except.ok true)
    (hid : a.id ≠ 0)
    (hname : a.name ≠ [])
    (hStat : env.stat (filepathBase (fromSlash a.name)) = StatRes.absent)
    (hDl : env.download a.id = Except.ok (none, u))
    (hTmp : env.tempCreate = Except.ok ()) :
    (u = [] →
      run args env = (Except.error RunError.noSensibleLink,
        [Event.fetchRelease args.owner args.repo,
         Event.statFile (filepathBase (fromSlash a.name)),
         Event.downloadAsset a.id]))
    ∧ (∀ resp : HttpResp, u ≠ [] → env.httpGet u = Except.ok resp → resp.status ≠ 200 →
      run args env = (Except.error (RunError.invalidStatus resp.status),
        [Event.fetchRelease args.owner args.repo,
         Event.statFile (filepathBase (fromSlash a.name)),
         Event.downloadAsset a.id, Event.httpGet u]))
    ∧ (∀ resp : HttpResp, u ≠ [] → env.httpGet u = Except.ok resp → resp.status = 200 →
        env.closeOk = true → env.renameOk = true →
      run args env = (Except.ok (filepathBase (fromSlash a.name), resp.body),
        [Event.fetchRelease args.owner args.repo,
         Event.statFile (filepathBase (fromSlash a.name)),
         Event.downloadAsset a.id, Event.httpGet u,
         Event.renameTo (filepathBase (fromSlash a.name))])) := by
  have hSel : selectLoop args.pattern release.assets [] = Except.ok (a.id, a.name) := by
    rw [hAssets]
    exact selectLoop_first_match args.pattern post a ha pre [] hpre
  refine ⟨?_, ?_, ?_⟩
  · intro hu
    subst hu
    simp only [run, if_neg (run_flags_ok args h1 h2 h3), hRel, hSel, if_neg hname, hStat,
      if_neg hid, hDl, hTmp]
    simp
  · intro resp hu hresp hst
    simp only [run, if_neg (run_flags_ok args h1 h2 h3), hRel, hSel, if_neg hname, hStat,
      if_neg hid, hDl, hTmp, if_pos hu, hresp, if_pos hst]
    simp
  · intro resp hu hresp hst hclose hrename
    have hst2 : ¬(resp.status ≠ 200) := not_not_intro hst
    simp only [run, if_neg (run_flags_ok args h1 h2 h3), hRel, hSel, if_neg hname, hStat,
      if_neg hid, hDl, hTmp, if_pos hu, hresp, if_neg hst2, finalize, hclose, hrename]
    simp

/-- Environment for the C6 witness: matching asset "a" with id 7, download
yields a redirect URL only, and the GET returns status 200 with body
bytes `[9, 8, 7]`. -/
def c6Env : Env :=
  { latestRelease := Except.ok ⟨[⟨7, ['a']⟩]⟩
  , stat := fun _ => StatRes.absent
  , download := fun _ => Except.ok (none, ['u'])
  , tempCreate := Except.ok ()
  , httpGet := fun _ => Except.ok ⟨200, [9, 8, 7]⟩
  , closeOk := true
  , renameOk := true }

/-- C6 witness: the redirect success path end to end — the GET body lands in
the destination file. -/
theorem C6_witness :
    run { owner := ['o'], repo := ['r'], pattern := ['a'], timeout := 0, token := [] } c6Env
      = (Except.ok (['a'], [9, 8, 7]),
         [Event.fetchRelease ['o'] ['r'], Event.statFile ['a'],
          Event.downloadAsset 7, Event.httpGet ['u'], Event.renameTo ['a']]) := by
  rw [(C6_redirect_download
    { owner := ['o'], repo := ['r'], pattern := ['a'], timeout := 0, token := [] }
    c6Env ⟨[⟨7, ['a']⟩]⟩ [] [] ⟨7, ['a']⟩ ['u']
    (by decide) (by decide) (by decide) (by decide) (by decide) (by decide) (by decide)
    (by decide) (by decide) (by decide) (by decide) (by decide)).2.2
    ⟨200, [9, 8, 7]⟩ (by decide) (by decide) (by decide) (by decide) (by decide)]
  decide

/-! ### C7: destination-name derivation -/

theorem dropWhileSep_ne_nil :
    ∀ (l : List Char), (∃ c ∈ l, c ≠ '/') →
      l.dropWhile (fun c => c = '/') ≠ [] := by
  intro l
  induction l with
  | nil =>
    intro h
    rcases h with ⟨c, hc, _⟩
    exact absurd hc (List.not_mem_nil c)
  | cons x t ih =>
    intro h
    by_cases hx : x = '/'
    · have ht : ∃ c ∈ t, c ≠ '/' := by
        rcases h with ⟨c, hc, hcne⟩
        rcases List.mem_cons.mp hc with hce | hct
        · exact absurd (hce.trans hx) hcne
        · exact ⟨c, hct, hcne⟩
      simp only [List.dropWhile, hx]
      simpa using ih ht
    · simp [List.dropWhile, hx]

theorem dropWhileSep_head_not (x : Char) (t : List Char) :
    ∀ (l : List Char), l.dropWhile (fun c => c = '/') = x :: t → x ≠ '/' := by
  intro l
  induction l with
  | nil => intro h; simp [List.dropWhile] at h
  | cons c cs ih =>
    intro h
    by_cases hc : c = '/'
    · simp only [List.dropWhile, hc] at h
      exact ih (by simpa using h)
    · simp [List.dropWhile, hc] at h
      exact h.1 ▸ hc

/-- C7 counterexample: for the remote asset name `"/"` the derived
destination is `"/"` itself — an absolute path containing a separator, not a
bare final segment — so "the destination contains no separator and is the
name's final path segment" fails as a universal statement. -/
theorem C7_counterexample :
    filepathBase (fromSlash ['/']) = ['/']
    ∧ '/' ∈ filepathBase (fromSlash ['/']) := by
  decide

/-- C7 (amended): for every matched asset name containing at least one
non-separator character, the destination is derived deterministically as the
name's final path segment (the suffix after the last `/`, trailing
separators removed) and contains no separator, so such a name cannot escape
the working directory; only a name consisting entirely of separators (or the
empty name, excluded earlier by the run) degenerates to `"/"` (resp. `"."`). -/
theorem C7_dest_is_final_segment (name : List Char)
    (h : ∃ c ∈ name, c ≠ '/') :
    filepathBase (fromSlash name) = afterLastSep (stripTrailingSep name)
    ∧ '/' ∉ filepathBase (fromSlash name) := by
  have hname : name ≠ [] := by
    rcases h with ⟨c, hc, _⟩
    intro hn
    rw [hn] at hc
    exact absurd hc (List.not_mem_nil c)
  have hrev : ∃ c ∈ name.reverse, c ≠ '/' := by
    rcases h with ⟨c, hc, hcne⟩
    exact ⟨c, List.mem_reverse.mpr hc, hcne⟩
  have hdrop : name.reverse.dropWhile (fun c => c = '/') ≠ [] :=
    dropWhileSep_ne_nil name.reverse hrev
  rcases hx : name.reverse.dropWhile (fun c => c = '/') with _ | ⟨x, t⟩
  · exact absurd hx hdrop
  · have hxslash : x ≠ '/' := dropWhileSep_head_not x t name.reverse hx
    have hq : (stripTrailingSep name).reverse = x :: t := by
      simp only [stripTrailingSep, List.reverse_reverse]
      exact hx
    have htake : (x :: t).takeWhile (fun c => c ≠ '/') = x :: t.takeWhile (fun c => c ≠ '/') := by
      simp [List.takeWhile, hxslash]
    have hr : afterLastSep (stripTrailingSep name)
        = (x :: t.takeWhile (fun c => c ≠ '/')).reverse := by
      simp only [afterLastSep, hq, htake]
    have hrne : afterLastSep (stripTrailingSep name) ≠ [] := by
      rw [hr]
      simp
    have hbase : filepathBase (fromSlash name) = afterLastSep (stripTrailingSep name) := by
      simp only [filepathBase, fromSlash, if_neg hname, if_neg hrne]
    refine ⟨hbase, ?_⟩
    rw [hbase, hr]
    intro hmem
    rw [List.mem_reverse] at hmem
    rcases List.mem_cons.mp hmem with hh | hh
    · exact hxslash hh.symm
    · have := List.mem_takeWhile_imp hh
      simp at this

/-- C7 witness: a remote name with embedded separators and traversal dots is
reduced to its harmless final segment. -/
theorem C7_witness :
    filepathBase (fromSlash "../../etc/passwd".toList)
      = afterLastSep (stripTrailingSep "../../etc/passwd".toList)
    ∧ '/' ∉ filepathBase (fromSlash "../../etc/passwd".toList) :=
  C7_dest_is_final_segment "../../etc/passwd".toList ⟨'.', by decide, by decide⟩
